import Mathlib

unseal Rat.mul Rat.add Rat.inv

/-!
Verification of the BRVM market-data service (scraper, PDF indicator
extractor, webhook dispatcher) against its specification.

Calendar dates are modelled by their proleptic Gregorian ordinal (as in
Python's `date.toordinal`): ordinal 1 is a Monday, so
`weekday o = (o - 1) mod 7` with 0 = Monday .. 6 = Sunday.
Times of day are seconds since midnight.
-/

/-- Weekday of the date with ordinal `o` (0 = Monday .. 6 = Sunday),
matching Python's `date.weekday()`. -/
def dateWeekday (o : Int) : Int := (o + 6) % 7

/-- The `while candidate_date.weekday() >= 5: candidate_date -= timedelta(days=1)`
loop of `PDFExtractor.get_pdf_date`. -/
def rollbackWeekend (o : Int) : Int :=
  if dateWeekday o ≥ 5 then rollbackWeekend (o - 1) else o
termination_by (dateWeekday o).toNat
decreasing_by
  simp only [dateWeekday] at *
  omega

/-- A reference instant: the calendar date's ordinal and the time of day in
seconds since midnight (`0 ≤ timeSec < 86400`). -/
structure RefInstant where
  dateOrd : Int
  timeSec : Int

/-- The 17:30:00 cutoff of `get_pdf_date`, in seconds since midnight. -/
def cutoffSec : Int := 17 * 3600 + 30 * 60

/-- Model of `PDFExtractor.get_pdf_date`: before 17:30 use the previous day, then
roll back while the candidate falls on a weekend. -/
def get_pdf_date (ref : RefInstant) : Int :=
  let candidate := if ref.timeSec < cutoffSec then ref.dateOrd - 1 else ref.dateOrd
  rollbackWeekend candidate

/-!
### Numeric normalization (`parse_float` / `parse_int` in `BRVMScraper.parse_actions`)

Python strings are modelled as Lean `String`. `str.strip()` strips Unicode
whitespace; the model strips ASCII whitespace plus the two non-breaking
spaces that occur in the source (U+00A0, U+202F). Python's `float()` and
`int()` builtins are modelled for finite decimal literals (optional sign,
digits, one optional point, optional exponent); `inf`/`nan` and underscore
digit separators are outside the modelled fragment. Decimal values are `Rat`.
-/

/-- Characters treated as strippable whitespace (model of `str.strip()`). -/
def pySpace (c : Char) : Bool :=
  c.isWhitespace || c = '\u00A0' || c = '\u202F'

/-- Model of Python `str.strip()`. -/
def pyStrip (s : String) : String :=
  ⟨((s.toList.dropWhile pySpace).reverse.dropWhile pySpace).reverse⟩

/-- Value of a digit list, most significant first. -/
def digitsVal (l : List Char) : Nat :=
  l.foldl (fun n c => n * 10 + (c.toNat - 48)) 0

def allDigits (l : List Char) : Bool := l.all Char.isDigit

/-- Consume an optional leading sign; returns (isNegative, rest). -/
def parseSign : List Char → Bool × List Char
  | '+' :: rest => (false, rest)
  | '-' :: rest => (true, rest)
  | l => (false, l)

/-- Split a char list at the first char satisfying `p`; the separator is
dropped, `none` when no separator occurs. -/
def splitFirst (p : Char → Bool) (l : List Char) : List Char × Option (List Char) :=
  let s := l.span (fun c => !p c)
  match s.2 with
  | [] => (s.1, none)
  | _ :: rest => (s.1, some rest)

/-- Value of an unsigned mantissa `digits[.digits]` (at least one digit). -/
def mantissaVal (l : List Char) : Option Rat :=
  let s := splitFirst (fun c => c = '.') l
  match s.2 with
  | none =>
      if !s.1.isEmpty && allDigits s.1 then some ((digitsVal s.1 : Nat) : Rat) else none
  | some fp =>
      if (!s.1.isEmpty || !fp.isEmpty) && allDigits s.1 && allDigits fp then
        some (((digitsVal (s.1 ++ fp) : Nat) : Rat) / (10 : Rat) ^ fp.length)
      else none

/-- Value of a signed exponent part. -/
def expVal (l : List Char) : Option Int :=
  let s := parseSign l
  if !s.2.isEmpty && allDigits s.2 then
    some (if s.1 then -(digitsVal s.2 : Int) else (digitsVal s.2 : Int))
  else none

/-- Model of Python `float(s)` on finite decimal literals. -/
def pyFloat (s : String) : Option Rat :=
  let r := parseSign s.toList
  let m := splitFirst (fun c => c = 'e' || c = 'E') r.2
  match mantissaVal m.1 with
  | none => none
  | some v =>
      let signed := if r.1 then -v else v
      match m.2 with
      | none => some signed
      | some el =>
          match expVal el with
          | none => none
          | some e => some (signed * (10 : Rat) ^ (e : Int))

/-- Model of Python `int(s)` on decimal literals. -/
def pyInt (s : String) : Option Int :=
  let r := parseSign s.toList
  if !r.2.isEmpty && allDigits r.2 then
    some (if r.1 then -(digitsVal r.2 : Int) else (digitsVal r.2 : Int))
  else none

/-- Python `str.replace` for a single-character pattern (the only shape the
source uses): every occurrence of `c` is replaced by `rep`. -/
def replaceChar (c : Char) (rep : List Char) : List Char → List Char
  | [] => []
  | x :: xs => if x = c then rep ++ replaceChar c rep xs else x :: replaceChar c rep xs

/-- The cleaning chain of `parse_float` / `parse_variation`: the source's
`value.replace(' ','').replace(',','.').replace(nbsp,'').replace(nnbsp,'').strip()`. -/
def cleanFloat (value : String) : String :=
  pyStrip ⟨replaceChar '\u202F' []
    (replaceChar '\u00A0' [] (replaceChar ',' ['.'] (replaceChar ' ' [] value.toList)))⟩

/-- The cleaning chain of `parse_int`: the source's
`value.replace(' ','').replace(nbsp,'').replace(nnbsp,'').strip()`. -/
def cleanInt (value : String) : String :=
  pyStrip ⟨replaceChar '\u202F' []
    (replaceChar '\u00A0' [] (replaceChar ' ' [] value.toList))⟩

/-- Model of `parse_float` from `BRVMScraper.parse_actions`: placeholder tokens map to
absence, then clean and parse; a parse failure is absorbed to `none`. -/
def parse_float (value : String) : Option Rat :=
  if value.isEmpty || ["-", "0", ""].contains (pyStrip value) then none
  else
    let cleaned := cleanFloat value
    if cleaned.isEmpty then none else pyFloat cleaned

/-- Model of `parse_int` from `BRVMScraper.parse_actions`: placeholder tokens map to 0,
then clean and parse; a parse failure is absorbed to 0. -/
def parse_int (value : String) : Int :=
  if value.isEmpty || ["-", "0", ""].contains (pyStrip value) then 0
  else
    let cleaned := cleanInt value
    if cleaned.isEmpty then 0
    else match pyInt cleaned with
    | some n => n
    | none => 0

/-!
### HTML document model and `BRVMScraper.parse_actions`

The BeautifulSoup document is modelled by the features `parse_actions`
inspects: the `section#block-system-main` region (when present) and the
whole page are each a list of tables in document order; a table carries
whether it has the `table-striped` class, an optional `tbody` row list and
its full row list; a row records whether it contains a `th` cell and its
`td` cells; a `td` carries its stripped text and, for the variation column,
the stripped text of a `span` with class `text-good`/`text-bad`/`text-nul`
when one is present. Rows' cell texts are the `get_text(strip=True)` values.
-/

structure Td where
  text : String
  varSpanText : Option String
deriving DecidableEq

instance : Inhabited Td := ⟨⟨"", none⟩⟩

structure TableRow where
  hasTh : Bool
  tds : List Td
deriving DecidableEq

structure HtmlTable where
  isStriped : Bool
  tbody : Option (List TableRow)
  allRows : List TableRow
deriving DecidableEq

structure HtmlDoc where
  mainSection : Option (List HtmlTable)
  allTables : List HtmlTable
deriving DecidableEq

/-- Model of `parse_variation` from `BRVMScraper.parse_actions`: prefer the styled
span's text, else the cell's own text; empty or dash is absence; then the
float cleaning chain. -/
def parse_variation (td : Td) : Option Rat :=
  let text := match td.varSpanText with
    | some t => t
    | none => td.text
  if text.isEmpty || text == "-" then none
  else
    let cleaned := cleanFloat text
    if cleaned.isEmpty then none else pyFloat cleaned

/-- One parsed quote row (the dict built in `parse_actions`). -/
structure ActionDict where
  symbole : String
  nom : String
  volume : Int
  cours_veille : Option Rat
  cours_ouverture : Option Rat
  cours_cloture : Option Rat
  variation : Option Rat
deriving DecidableEq

/-- The per-row body of the `parse_actions` loop: a row with fewer than 7
cells is skipped, a row with an empty symbol is skipped, otherwise the
fixed-column extraction runs. -/
def parseRow (row : TableRow) : Option ActionDict :=
  let cols := row.tds
  if cols.length < 7 then none
  else
    let symbole := (cols.getD 0 default).text
    let nom := (cols.getD 1 default).text
    if symbole.isEmpty then none
    else some {
      symbole := symbole
      nom := nom
      volume := parse_int (cols.getD 2 default).text
      cours_veille := parse_float (cols.getD 3 default).text
      cours_ouverture := parse_float (cols.getD 4 default).text
      cours_cloture := parse_float (cols.getD 5 default).text
      variation := parse_variation (cols.getD 6 default) }

/-- Table selection of `parse_actions`: first table with class
`table-striped`, else the first table. -/
def findTable (tbls : List HtmlTable) : Option HtmlTable :=
  match tbls.find? (fun t => t.isStriped) with
  | some t => some t
  | none => tbls.head?

/-- Row selection of `parse_actions`: the `tbody` rows when a `tbody`
exists, else all rows with header (`th`) rows filtered out. -/
def tableRows (t : HtmlTable) : List TableRow :=
  match t.tbody with
  | some rs => rs
  | none => t.allRows.filter (fun r => !r.hasTh)

/-- The tables searched by `parse_actions`: those of
`section#block-system-main` when that section exists, else the whole page's
(the `main_section = soup` fallback). -/
def sectionTables (doc : HtmlDoc) : List HtmlTable :=
  match doc.mainSection with
  | some s => s
  | none => doc.allTables

/-- Model of `BRVMScraper.parse_actions`: locate the main section (fall back to the
whole page), select a table, select rows, and parse each row, absorbing bad
rows. Returns the empty list when no table or no rows are found. -/
def parse_actions (doc : HtmlDoc) : List ActionDict :=
  match findTable (sectionTables doc) with
  | none => []
  | some t => (tableRows t).filterMap parseRow

/-!
### Scraper persistence (`BRVMScraper.save_to_database` / `scrape_and_save`)

The relational store is modelled by the rows the scraper touches: the
`actions` table (one `ActionDict` per row, identity = `symbole`) and the
`historique_actions` table (append-only `(symbole, data_snapshot)` rows).
`db.commit()` may fail; this external outcome is the `commitOK` parameter.
A Python exception escaping a function is an `Except.error`.
-/

structure SaveStats where
  inserted : Nat
  updated : Nat
  errors : Nat
deriving DecidableEq

structure ScraperDB where
  actions : List ActionDict
  historique : List (String × ActionDict)
deriving DecidableEq

/-- Replace the first element satisfying `p` (SQLAlchemy's `.first()` row
followed by attribute updates). -/
def updateFirst (p : α → Bool) (f : α → α) : List α → List α
  | [] => []
  | x :: xs => if p x then f x :: xs else x :: updateFirst p f xs

namespace BRVMScraper

/-- One iteration of the save loop: update the existing row with this symbol
or insert a new one, and always append a history snapshot. Returns whether
the symbol already existed. -/
def saveOne (db : ScraperDB) (a : ActionDict) : Bool × ScraperDB :=
  if db.actions.any (fun x => x.symbole == a.symbole) then
    (true,
     { actions := updateFirst (fun x => x.symbole == a.symbole) (fun _ => a) db.actions
       historique := db.historique ++ [(a.symbole, a)] })
  else
    (false,
     { actions := db.actions ++ [a]
       historique := db.historique ++ [(a.symbole, a)] })

/-- The `for action_data in actions_data` loop of `save_to_database`,
accumulating the inserted/updated counters. -/
def saveLoop (items : List ActionDict) (db : ScraperDB) : SaveStats × ScraperDB :=
  items.foldl
    (fun acc a =>
      let r := saveOne acc.2 a
      (if r.1 then { acc.1 with updated := acc.1.updated + 1 }
       else { acc.1 with inserted := acc.1.inserted + 1 }, r.2))
    (⟨0, 0, 0⟩, db)

/-- Model of `BRVMScraper.save_to_database`: run the loop, then commit; on a commit
failure the transaction is rolled back and the exception is re-raised
(`db.rollback(); raise`). -/
def save_to_database (items : List ActionDict) (commitOK : Bool) (db : ScraperDB) :
    Except Unit SaveStats × ScraperDB :=
  let r := saveLoop items db
  if commitOK then (.ok r.1, r.2) else (.error (), db)

/-- Model of `BRVMScraper.scrape_and_save`: a failed fetch (`None` or empty text) or
an empty parse short-circuits with one error and no writes; otherwise the
parsed rows are saved. -/
def scrape_and_save (fetched : Option HtmlDoc) (commitOK : Bool) (db : ScraperDB) :
    Except Unit SaveStats × ScraperDB :=
  match fetched with
  | none => (.ok ⟨0, 0, 1⟩, db)
  | some doc =>
    let data := parse_actions doc
    if data.isEmpty then (.ok ⟨0, 0, 1⟩, db)
    else save_to_database data commitOK db

end BRVMScraper

/-!
### PDF indicator persistence (`PDFExtractor`)

`IndicateurMarche` rows carry the report date (as an ordinal), the four
optional indicators and the source URL (the `id` and `created_at` columns
play no role in the verified logic). External outcomes (local file present,
download success, extracted indicator values, commit success) are
parameters; `today` is the current date's ordinal used by retention.
-/

structure Indicators where
  taux_rendement_moyen : Option Rat
  per_moyen : Option Rat
  taux_rentabilite_moyen : Option Rat
  prime_risque_marche : Option Rat
deriving DecidableEq

/-- Model of `all(v is None for v in indicators.values())`. -/
def Indicators.allNone (i : Indicators) : Bool :=
  i.taux_rendement_moyen.isNone && i.per_moyen.isNone &&
  i.taux_rentabilite_moyen.isNone && i.prime_risque_marche.isNone

structure IndicateurMarche where
  date_rapport : Int
  taux_rendement_moyen : Option Rat
  per_moyen : Option Rat
  taux_rentabilite_moyen : Option Rat
  prime_risque_marche : Option Rat
  source_pdf : String
deriving DecidableEq

namespace PDFExtractor

/-- The row written or overwritten by `PDFExtractor.save_to_database`. -/
def mkReport (target_date : Int) (i : Indicators) (pdf_url : String) : IndicateurMarche :=
  { date_rapport := target_date
    taux_rendement_moyen := i.taux_rendement_moyen
    per_moyen := i.per_moyen
    taux_rentabilite_moyen := i.taux_rentabilite_moyen
    prime_risque_marche := i.prime_risque_marche
    source_pdf := pdf_url }

/-- Model of `PDFExtractor.save_to_database`: update the first row with the target
date or insert a new one; a commit failure rolls back and returns `False`. -/
def save_to_database (indicators : Indicators) (pdf_url : String) (target_date : Int)
    (commitOK : Bool) (db : List IndicateurMarche) : Bool × List IndicateurMarche :=
  let db1 :=
    if db.any (fun r => r.date_rapport == target_date) then
      updateFirst (fun r => r.date_rapport == target_date)
        (fun r => { r with
          taux_rendement_moyen := indicators.taux_rendement_moyen
          per_moyen := indicators.per_moyen
          taux_rentabilite_moyen := indicators.taux_rentabilite_moyen
          prime_risque_marche := indicators.prime_risque_marche
          source_pdf := pdf_url }) db
    else db ++ [mkReport target_date indicators pdf_url]
  if commitOK then (true, db1) else (false, db)

/-- Model of `PDFExtractor.cleanup_old_data`: delete the rows dated strictly before
`today - retention_days`; a failure rolls back and reports 0 deletions. -/
def cleanup_old_data (retention_days today : Int) (commitOK : Bool)
    (db : List IndicateurMarche) : Nat × List IndicateurMarche :=
  let cutoff := today - retention_days
  let deleted := (db.filter (fun r => r.date_rapport < cutoff)).length
  if commitOK then (deleted, db.filter (fun r => !(r.date_rapport < cutoff : Bool)))
  else (0, db)

/-- Model of `PDFExtractor.process_daily_pdf`: abort (returning `False`, writing
nothing) when no local copy can be obtained or when extraction found none of
the four indicators; otherwise persist, then clean up, and return the
persist step's boolean result. -/
def process_daily_pdf (fileExists downloadOK : Bool) (extracted : Indicators)
    (pdf_url : String) (target_date : Int) (saveCommitOK cleanupCommitOK : Bool)
    (retention_days today : Int) (db : List IndicateurMarche) :
    Bool × List IndicateurMarche :=
  if !fileExists && !downloadOK then (false, db)
  else if extracted.allNone then (false, db)
  else
    let r1 := save_to_database extracted pdf_url target_date saveCommitOK db
    let r2 := cleanup_old_data retention_days today cleanupCommitOK r1.2
    (r1.1, r2.2)

end PDFExtractor

/-!
### Webhook dispatch (`WebhookManager`)

The outcome of one HTTP POST attempt is an oracle indexed by the attempt
number; `send_webhook` is the bounded retry loop (the backoff sleep has no
observable effect on the result). Subscribers are rows of the
`webhook_subscriptions` table; delivery and per-subscriber commit outcomes
are oracles over the subscriber row.
-/

inductive PostResult where
  | success
  | timeoutErr
  | requestErr
deriving DecidableEq

/-- The `for attempt in range(1, max_retries+1)` loop of
`WebhookManager.send_webhook`, from attempt number `attempt` on. Returns the
boolean result and how many HTTP attempts were made. -/
def sendFrom (attemptResult : Nat → PostResult) (max_retries attempt : Nat) :
    Bool × Nat :=
  if attempt > max_retries then (false, 0)
  else match attemptResult attempt with
    | .success => (true, 1)
    | _ =>
      if attempt = max_retries then (false, 1)
      else
        let r := sendFrom attemptResult max_retries (attempt + 1)
        (r.1, r.2 + 1)
termination_by max_retries + 1 - attempt

/-- Model of `WebhookManager.send_webhook`: retry from attempt 1 up to `max_retries`;
falling out of the loop returns `False`. -/
def send_webhook (attemptResult : Nat → PostResult) (max_retries : Nat) : Bool × Nat :=
  sendFrom attemptResult max_retries 1

structure Webhook where
  id : Nat
  url : String
  is_active : Int
  last_triggered : Option Nat
deriving DecidableEq

structure BroadcastStats where
  success : Nat
  failed : Nat
deriving DecidableEq

/-- Model of `WebhookManager.get_active_webhooks`: the subscribers with
`is_active == 1`. -/
def get_active_webhooks (db : List Webhook) : List Webhook :=
  db.filter (fun w => w.is_active == 1)

/-- Model of `WebhookManager.broadcast_to_webhooks`: deliver to every active
subscriber, counting successes and failures; on a successful delivery set
that subscriber's `last_triggered` to `now` and commit (a failed commit
rolls the timestamp back but the counters are already updated). `sendOK`
and `commitOK` are the delivery and commit outcomes per subscriber. -/
def broadcast_to_webhooks (sendOK commitOK : Webhook → Bool) (now : Nat)
    (db : List Webhook) : BroadcastStats × List Webhook :=
  let webhooks := get_active_webhooks db
  if webhooks.isEmpty then (⟨0, 0⟩, db)
  else
    let stats := webhooks.foldl
      (fun s w => if sendOK w then { s with success := s.success + 1 }
                  else { s with failed := s.failed + 1 })
      ⟨0, 0⟩
    (stats,
     db.map (fun w =>
       if w.is_active == 1 && sendOK w && commitOK w
       then { w with last_triggered := some now } else w))
/-!
### Spec-side definitions
-/

/-- Modelled from the spec (for the case-normalization claim): upper-casing
of a string, character by character. -/
def specSymbolUpper (s : String) : String := ⟨s.toList.map Char.toUpper⟩

theorem dateWeekday_nonneg (o : Int) : 0 ≤ dateWeekday o := by
  simp only [dateWeekday]; omega

theorem dateWeekday_lt_seven (o : Int) : dateWeekday o < 7 := by
  simp only [dateWeekday]; omega

theorem rollbackWeekend_of_weekday (o : Int) (h : dateWeekday o < 5) :
    rollbackWeekend o = o := by
  rw [rollbackWeekend]
  simp [not_le.mpr h]

theorem rollbackWeekend_of_sat (o : Int) (h : dateWeekday o = 5) :
    rollbackWeekend o = o - 1 := by
  rw [rollbackWeekend]
  have h1 : dateWeekday (o - 1) < 5 := by
    simp only [dateWeekday] at *; omega
  rw [if_pos (by omega), rollbackWeekend_of_weekday _ h1]

theorem rollbackWeekend_of_sun (o : Int) (h : dateWeekday o = 6) :
    rollbackWeekend o = o - 2 := by
  rw [rollbackWeekend]
  have h1 : dateWeekday (o - 1) = 5 := by
    simp only [dateWeekday] at *; omega
  rw [if_pos (by omega), rollbackWeekend_of_sat _ h1]
  ring

theorem rollbackWeekend_spec (o : Int) :
    dateWeekday (rollbackWeekend o) < 5 ∧
    rollbackWeekend o ≤ o ∧
    ∀ e : Int, rollbackWeekend o < e → e ≤ o → 5 ≤ dateWeekday e := by
  have h7 := dateWeekday_lt_seven o
  have h0 := dateWeekday_nonneg o
  rcases lt_or_ge (dateWeekday o) 5 with h | h
  · rw [rollbackWeekend_of_weekday o h]
    exact ⟨h, le_refl o, fun e h1 h2 => absurd (lt_of_lt_of_le h1 h2) (lt_irrefl o)⟩
  · rcases (by omega : dateWeekday o = 5 ∨ dateWeekday o = 6) with h5 | h6
    · rw [rollbackWeekend_of_sat o h5]
      refine ⟨by simp only [dateWeekday] at *; omega, by omega, ?_⟩
      intro e h1 h2
      have he : e = o := by omega
      subst he
      omega
    · rw [rollbackWeekend_of_sun o h6]
      refine ⟨by simp only [dateWeekday] at *; omega, by omega, ?_⟩
      intro e h1 h2
      have he : e = o - 1 ∨ e = o := by omega
      rcases he with he | he <;> subst he <;> simp only [dateWeekday] at * <;> omega

/-- Claim C1: `get_pdf_date` returns the candidate date (reference date if the
time of day is at or past 17:30, the previous day otherwise) rolled back past
any Saturday/Sunday; the result is always a Monday-Friday weekday and no
weekday strictly between result and candidate is skipped; in particular, at or
after 17:30 on a weekday the reference date itself is returned. -/
theorem C1_get_pdf_date_spec (ref : RefInstant) :
    0 ≤ dateWeekday (get_pdf_date ref) ∧
    dateWeekday (get_pdf_date ref) < 5 ∧
    get_pdf_date ref ≤ (if ref.timeSec < cutoffSec then ref.dateOrd - 1 else ref.dateOrd) ∧
    (∀ e : Int, get_pdf_date ref < e →
      e ≤ (if ref.timeSec < cutoffSec then ref.dateOrd - 1 else ref.dateOrd) →
      5 ≤ dateWeekday e) ∧
    (cutoffSec ≤ ref.timeSec → dateWeekday ref.dateOrd < 5 →
      get_pdf_date ref = ref.dateOrd) := by
  have hspec := rollbackWeekend_spec (if ref.timeSec < cutoffSec then ref.dateOrd - 1 else ref.dateOrd)
  refine ⟨dateWeekday_nonneg _, ?_, ?_, ?_, ?_⟩
  · exact hspec.1
  · exact hspec.2.1
  · exact hspec.2.2
  · intro hcut hwd
    have : ¬ (ref.timeSec < cutoffSec) := not_lt.mpr hcut
    simp only [get_pdf_date, if_neg this]
    exact rollbackWeekend_of_weekday _ hwd


/-!
### Numeric normalization: claim C6
-/

theorem mem_of_mem_replaceChar {x c : Char} {rep : List Char} :
    ∀ {l : List Char}, x ∈ replaceChar c rep l → x ∈ rep ∨ x ∈ l := by
  intro l
  induction l with
  | nil => intro h; simp [replaceChar] at h
  | cons y ys ih =>
    intro h
    simp only [replaceChar] at h
    by_cases hy : y = c
    · rw [if_pos hy] at h
      rcases List.mem_append.mp h with h | h
      · exact Or.inl h
      · rcases ih h with h | h
        · exact Or.inl h
        · exact Or.inr (List.mem_cons_of_mem _ h)
    · rw [if_neg hy] at h
      rcases List.mem_cons.mp h with h | h
      · exact Or.inr (h ▸ List.mem_cons_self _ _)
      · rcases ih h with h2 | h2
        · exact Or.inl h2
        · exact Or.inr (List.mem_cons_of_mem _ h2)

theorem not_mem_replaceChar_self {c : Char} {rep : List Char} (hc : c ∉ rep) :
    ∀ l : List Char, c ∉ replaceChar c rep l := by
  intro l
  induction l with
  | nil => simp [replaceChar]
  | cons y ys ih =>
    simp only [replaceChar]
    by_cases hy : y = c
    · rw [if_pos hy]
      intro h
      rcases List.mem_append.mp h with h | h
      · exact hc h
      · exact ih h
    · rw [if_neg hy]
      intro h
      rcases List.mem_cons.mp h with h | h
      · exact hy h.symm
      · exact ih h

theorem mem_of_mem_pyStrip {x : Char} {s : String} (h : x ∈ (pyStrip s).toList) :
    x ∈ s.toList := by
  simp only [pyStrip] at h
  have h1 : x ∈ (s.toList.dropWhile pySpace).reverse.dropWhile pySpace :=
    List.mem_reverse.mp h
  have h2 : x ∈ (s.toList.dropWhile pySpace).reverse :=
    (List.dropWhile_sublist _).subset h1
  exact (List.dropWhile_sublist _).subset (List.mem_reverse.mp h2)

theorem comma_not_mem_cleanFloat (s : String) : ',' ∉ (cleanFloat s).toList := by
  intro h
  have h1 := mem_of_mem_pyStrip h
  rcases mem_of_mem_replaceChar h1 with h2 | h2
  · simp at h2
  rcases mem_of_mem_replaceChar h2 with h3 | h3
  · simp at h3
  exact not_mem_replaceChar_self (by decide) _ h3

/-- Claim C6: the placeholder tokens (empty string, bare dash, literal "0")
parse to absence for decimal fields and to 0 for the integer volume field;
the decimal comma is replaced by a point before parsing (no comma survives
cleaning, and "1 234,56" with a thousands space parses to 1234.56); residual
non-numeric content yields absence / 0 (the parsers are total functions into
`Option Rat` / `Int`, so no exception can escape). -/
theorem C6_numeric_normalizer :
    (parse_float "" = none ∧ parse_float "-" = none ∧ parse_float "0" = none) ∧
    (parse_int "" = 0 ∧ parse_int "-" = 0 ∧ parse_int "0" = 0) ∧
    parse_float "1 234,56" = some (123456 / 100 : Rat) ∧
    parse_int "12 500" = 12500 ∧
    (parse_float "n/a" = none ∧ parse_int "n/a" = 0) ∧
    (∀ s : String, ',' ∉ (cleanFloat s).toList) :=
  ⟨by decide, by decide, by decide, by decide, by decide, comma_not_mem_cleanFloat⟩

/-!
### Parsing safety: claims C7 and C9
-/

theorem parseRow_short {row : TableRow} (h : row.tds.length < 7) :
    parseRow row = none := by
  simp [parseRow, h]

theorem parseRow_empty_symbole {row : TableRow}
    (h : ((row.tds.getD 0 default).text).isEmpty = true) :
    parseRow row = none := by
  simp only [parseRow]
  split
  · rfl
  · simp [h]

/-- Claim C7: `parse_actions` never fails on any input markup: a row with
fewer than 7 cells contributes nothing, a row with an empty symbol
contributes nothing, each row is parsed independently of the others (a bad
row is absorbed and parsing continues with the rest), and a document with no
matching table or no rows yields the empty list. The embedding is a total
function, so no exception is possible. -/
theorem C7_parse_actions_safe :
    (∀ row : TableRow, row.tds.length < 7 → parseRow row = none) ∧
    (∀ row : TableRow, ((row.tds.getD 0 default).text).isEmpty = true →
      parseRow row = none) ∧
    (∀ doc : HtmlDoc, sectionTables doc = [] → parse_actions doc = []) ∧
    (∀ doc : HtmlDoc, ∀ t : HtmlTable, findTable (sectionTables doc) = some t →
      tableRows t = [] → parse_actions doc = []) ∧
    (∀ doc : HtmlDoc, ∀ t : HtmlTable, findTable (sectionTables doc) = some t →
      parse_actions doc = (tableRows t).filterMap parseRow) := by
  refine ⟨fun row h => parseRow_short h, fun row h => parseRow_empty_symbole h, ?_, ?_, ?_⟩
  · intro doc h
    simp [parse_actions, h, findTable]
  · intro doc t ht hrows
    simp [parse_actions, ht, hrows]
  · intro doc t ht
    simp [parse_actions, ht]

theorem C7_witness :
    parseRow ⟨false, [⟨"AB", none⟩]⟩ = none ∧
    parse_actions ⟨some [], []⟩ = [] :=
  ⟨C7_parse_actions_safe.1 ⟨false, [⟨"AB", none⟩]⟩ (by decide),
   C7_parse_actions_safe.2.2.1 ⟨some [], []⟩ (by decide)⟩

theorem parseRow_some_symbole {row : TableRow} {a : ActionDict}
    (h : parseRow row = some a) : a.symbole = (row.tds.getD 0 default).text := by
  simp only [parseRow] at h
  split at h
  · exact absurd h (by simp)
  · split at h
    · exact absurd h (by simp)
    · simp only [Option.some.injEq] at h
      subst h
      rfl

/-- Claim C9, counterexample: the code stores the symbol cell's text
verbatim, with no upper-casing; a row whose symbol cell is `"ab"` is stored
as `"ab"`, not as its upper-casing `"AB"`. -/
theorem C9_counterexample :
    (parse_actions
      ⟨some [⟨true, some [⟨false,
        [⟨"ab", none⟩, ⟨"N", none⟩, ⟨"1", none⟩, ⟨"-", none⟩,
         ⟨"-", none⟩, ⟨"-", none⟩, ⟨"-", none⟩]⟩], []⟩], []⟩).map
      ActionDict.symbole = ["ab"] ∧
    specSymbolUpper "ab" = "AB" ∧ ("ab" : String) ≠ "AB" := by
  refine ⟨by decide, by decide, by decide⟩

/-- Claim C9, amended: for every parsed row the stored symbol equals the
symbol cell's (stripped) text verbatim — no case normalization is applied. -/
theorem C9_amended_symbole_verbatim (row : TableRow) (a : ActionDict)
    (h : parseRow row = some a) : a.symbole = (row.tds.getD 0 default).text :=
  parseRow_some_symbole h

theorem C9_witness :
    (({ symbole := "ab", nom := "N", volume := 1, cours_veille := none,
        cours_ouverture := none, cours_cloture := none,
        variation := none } : ActionDict)).symbole =
      (([⟨"ab", none⟩, ⟨"N", none⟩, ⟨"1", none⟩, ⟨"-", none⟩,
         ⟨"-", none⟩, ⟨"-", none⟩, ⟨"-", none⟩] : List Td).getD 0 default).text :=
  C9_amended_symbole_verbatim
    ⟨false, [⟨"ab", none⟩, ⟨"N", none⟩, ⟨"1", none⟩, ⟨"-", none⟩,
             ⟨"-", none⟩, ⟨"-", none⟩, ⟨"-", none⟩]⟩
    _ (by decide)

/-!
### Webhook retry loop: claim C10
-/

/-- Claim C10: with a configured maximum retry count of 0, `send_webhook`
makes no HTTP attempt at all and returns failure, for every sequence of
would-be attempt outcomes (hence for every URL and payload). -/
theorem C10_send_webhook_zero_retries (attemptResult : Nat → PostResult) :
    send_webhook attemptResult 0 = (false, 0) := by
  rw [send_webhook, sendFrom]
  norm_num

/-!
### Webhook broadcast: claim C2
-/

theorem broadcast_foldl_count (sendOK : Webhook → Bool) (l : List Webhook) :
    ∀ s : BroadcastStats,
      l.foldl
        (fun s w => if sendOK w then { s with success := s.success + 1 }
                    else { s with failed := s.failed + 1 }) s
      = ⟨s.success + (l.filter sendOK).length,
         s.failed + (l.filter (fun w => !sendOK w)).length⟩ := by
  induction l with
  | nil => intro s; simp
  | cons w ws ih =>
    intro s
    simp only [List.foldl_cons, List.filter_cons]
    by_cases h : sendOK w
    · simp [h, ih, BroadcastStats.mk.injEq, Nat.add_comm, Nat.add_assoc, Nat.add_left_comm]
    · simp [h, ih, BroadcastStats.mk.injEq, Nat.add_comm, Nat.add_assoc, Nat.add_left_comm]

/-- Claim C2: `broadcast_to_webhooks` attempts delivery to every active
subscriber (each is counted exactly once, so one failure never prevents the
rest), `success + failed` equals the number of active subscribers, and a
subscriber's row is set to the new `last_triggered` timestamp exactly when it
is active, its delivery succeeded and its commit succeeded — in particular a
failing subscriber's row is unchanged. -/
theorem C2_broadcast_spec (sendOK commitOK : Webhook → Bool) (now : Nat)
    (db : List Webhook) :
    (broadcast_to_webhooks sendOK commitOK now db).1.success
        = ((get_active_webhooks db).filter sendOK).length ∧
    (broadcast_to_webhooks sendOK commitOK now db).1.failed
        = ((get_active_webhooks db).filter (fun w => !sendOK w)).length ∧
    (broadcast_to_webhooks sendOK commitOK now db).1.success
      + (broadcast_to_webhooks sendOK commitOK now db).1.failed
        = (get_active_webhooks db).length ∧
    (∀ i : Nat, ∀ w : Webhook, db[i]? = some w →
      (broadcast_to_webhooks sendOK commitOK now db).2[i]?
        = some (if w.is_active == 1 && sendOK w && commitOK w
                then { w with last_triggered := some now } else w)) := by
  by_cases hemp : (get_active_webhooks db).isEmpty
  · have hnil : get_active_webhooks db = [] := List.isEmpty_iff.mp hemp
    have hnotactive : ∀ w ∈ db, ¬ (w.is_active == 1) = true := by
      intro w hw
      exact (List.filter_eq_nil_iff.mp hnil) w hw
    refine ⟨?_, ?_, ?_, ?_⟩ <;>
      simp only [broadcast_to_webhooks, hemp, if_pos, hnil, List.filter_nil,
        List.length_nil, List.isEmpty_nil]
    · intro i w hw
      have hact : (w.is_active == 1) = false :=
        Bool.not_eq_true _ ▸ Bool.eq_false_iff.mpr (hnotactive w (List.getElem?_mem hw))
      simp [hw, hact]
  · have hcount := broadcast_foldl_count sendOK (get_active_webhooks db) ⟨0, 0⟩
    refine ⟨?_, ?_, ?_, ?_⟩
    · simp only [broadcast_to_webhooks, hemp, Bool.false_eq_true, if_false, hcount]
      omega
    · simp only [broadcast_to_webhooks, hemp, Bool.false_eq_true, if_false, hcount]
      omega
    · simp only [broadcast_to_webhooks, hemp, Bool.false_eq_true, if_false, hcount]
      have := List.length_eq_length_filter_add (l := get_active_webhooks db) sendOK
      omega
    · intro i w hw
      simp only [broadcast_to_webhooks, hemp, Bool.false_eq_true, if_false,
        List.getElem?_map, hw]
      rfl

theorem C2_witness :
    (broadcast_to_webhooks (fun w => w.id != 2) (fun _ => true) 5
      [⟨1, "u1", 1, none⟩, ⟨2, "u2", 1, none⟩, ⟨3, "u3", 1, none⟩]).1.success = 2 ∧
    (broadcast_to_webhooks (fun w => w.id != 2) (fun _ => true) 5
      [⟨1, "u1", 1, none⟩, ⟨2, "u2", 1, none⟩, ⟨3, "u3", 1, none⟩]).1.failed = 1 ∧
    (broadcast_to_webhooks (fun w => w.id != 2) (fun _ => true) 5
      [⟨1, "u1", 1, none⟩, ⟨2, "u2", 1, none⟩, ⟨3, "u3", 1, none⟩]).2[1]?
      = some ⟨2, "u2", 1, none⟩ := by
  refine ⟨?_, ?_, ?_⟩
  · have h := (C2_broadcast_spec (fun w => w.id != 2) (fun _ => true) 5
      [⟨1, "u1", 1, none⟩, ⟨2, "u2", 1, none⟩, ⟨3, "u3", 1, none⟩]).1
    rw [h]; decide
  · have h := (C2_broadcast_spec (fun w => w.id != 2) (fun _ => true) 5
      [⟨1, "u1", 1, none⟩, ⟨2, "u2", 1, none⟩, ⟨3, "u3", 1, none⟩]).2.1
    rw [h]; decide
  · have h := (C2_broadcast_spec (fun w => w.id != 2) (fun _ => true) 5
      [⟨1, "u1", 1, none⟩, ⟨2, "u2", 1, none⟩, ⟨3, "u3", 1, none⟩]).2.2.2
      1 ⟨2, "u2", 1, none⟩ rfl
    rw [h]; decide

/-!
### Scraper persistence: claims C3 and C8
-/

theorem saveOne_historique (db : ScraperDB) (a : ActionDict) :
    (BRVMScraper.saveOne db a).2.historique = db.historique ++ [(a.symbole, a)] := by
  simp only [BRVMScraper.saveOne]
  split <;> rfl

theorem saveLoop_foldl_spec (items : List ActionDict) :
    ∀ acc : SaveStats × ScraperDB,
      (BRVMScraper.saveLoop items acc.2).2.historique
        = acc.2.historique ++ items.map (fun a => (a.symbole, a)) ∧
      (BRVMScraper.saveLoop items acc.2).1.inserted
        + (BRVMScraper.saveLoop items acc.2).1.updated = items.length ∧
      (BRVMScraper.saveLoop items acc.2).1.errors = 0 := by
  suffices h : ∀ acc : SaveStats × ScraperDB,
      (items.foldl
        (fun acc a =>
          let r := BRVMScraper.saveOne acc.2 a
          (if r.1 then { acc.1 with updated := acc.1.updated + 1 }
           else { acc.1 with inserted := acc.1.inserted + 1 }, r.2)) acc).2.historique
        = acc.2.historique ++ items.map (fun a => (a.symbole, a)) ∧
      (items.foldl
        (fun acc a =>
          let r := BRVMScraper.saveOne acc.2 a
          (if r.1 then { acc.1 with updated := acc.1.updated + 1 }
           else { acc.1 with inserted := acc.1.inserted + 1 }, r.2)) acc).1.inserted
        + (items.foldl
        (fun acc a =>
          let r := BRVMScraper.saveOne acc.2 a
          (if r.1 then { acc.1 with updated := acc.1.updated + 1 }
           else { acc.1 with inserted := acc.1.inserted + 1 }, r.2)) acc).1.updated
        = acc.1.inserted + acc.1.updated + items.length ∧
      (items.foldl
        (fun acc a =>
          let r := BRVMScraper.saveOne acc.2 a
          (if r.1 then { acc.1 with updated := acc.1.updated + 1 }
           else { acc.1 with inserted := acc.1.inserted + 1 }, r.2)) acc).1.errors
        = acc.1.errors by
    intro acc
    have h2 := h (⟨0, 0, 0⟩, acc.2)
    simpa [BRVMScraper.saveLoop] using h2
  induction items with
  | nil => intro acc; simp
  | cons a items ih =>
    intro acc
    simp only [List.foldl_cons, List.map_cons]
    set acc1 := (if (BRVMScraper.saveOne acc.2 a).1
      then { acc.1 with updated := acc.1.updated + 1 }
      else { acc.1 with inserted := acc.1.inserted + 1 },
      (BRVMScraper.saveOne acc.2 a).2) with hacc1
    have h1 := ih acc1
    refine ⟨?_, ?_, ?_⟩
    · rw [h1.1, hacc1]
      simp [saveOne_historique]
    · rw [h1.2.1, hacc1]
      by_cases hb : (BRVMScraper.saveOne acc.2 a).1 <;> simp [hb] <;> omega
    · rw [h1.2.2, hacc1]
      by_cases hb : (BRVMScraper.saveOne acc.2 a).1 <;> simp [hb]

/-- Claim C3: `scrape_and_save` returns `{inserted: 0, updated: 0, errors: 1}`
and commits nothing when the fetch fails or parsing yields no rows; otherwise
(on a successful commit) it upserts each parsed quote (update the existing
symbol's row, else insert) and always appends exactly one history snapshot
row per parsed quote, so inserted + updated equals the number of parsed
quotes and errors is 0; the spec's scenario (one well-formed row "ABCD" with
volume "12 500" and close "1 020,50", one 4-cell row) yields
`{inserted: 1, updated: 0, errors: 0}` and exactly one snapshot row. -/
theorem C3_scrape_and_save_spec :
    (∀ commitOK : Bool, ∀ db : ScraperDB,
      BRVMScraper.scrape_and_save none commitOK db = (.ok ⟨0, 0, 1⟩, db)) ∧
    (∀ doc : HtmlDoc, ∀ commitOK : Bool, ∀ db : ScraperDB, parse_actions doc = [] →
      BRVMScraper.scrape_and_save (some doc) commitOK db = (.ok ⟨0, 0, 1⟩, db)) ∧
    (∀ db : ScraperDB, ∀ a : ActionDict,
      (db.actions.any (fun x => x.symbole == a.symbole)) = true →
      (BRVMScraper.saveOne db a).2.actions
        = updateFirst (fun x => x.symbole == a.symbole) (fun _ => a) db.actions) ∧
    (∀ db : ScraperDB, ∀ a : ActionDict,
      (db.actions.any (fun x => x.symbole == a.symbole)) = false →
      (BRVMScraper.saveOne db a).2.actions = db.actions ++ [a]) ∧
    (∀ doc : HtmlDoc, ∀ db : ScraperDB, (parse_actions doc).isEmpty = false →
      (BRVMScraper.scrape_and_save (some doc) true db).2.historique
        = db.historique ++ (parse_actions doc).map (fun a => (a.symbole, a)) ∧
      ∀ stats : SaveStats,
        (BRVMScraper.scrape_and_save (some doc) true db).1 = .ok stats →
        stats.inserted + stats.updated = (parse_actions doc).length ∧
        stats.errors = 0) ∧
    ((BRVMScraper.scrape_and_save
        (some ⟨some [⟨true, some
          [⟨false, [⟨"ABCD", none⟩, ⟨"Societe Generale", none⟩, ⟨"12 500", none⟩,
                    ⟨"1 000", none⟩, ⟨"1 010", none⟩, ⟨"1 020,50", none⟩,
                    ⟨"0,50", some "0,50"⟩]⟩,
           ⟨false, [⟨"XYZ", none⟩, ⟨"Bad", none⟩, ⟨"1", none⟩, ⟨"2", none⟩]⟩],
          []⟩], []⟩)
        true ⟨[], []⟩).1 = .ok ⟨1, 0, 0⟩ ∧
      (BRVMScraper.scrape_and_save
        (some ⟨some [⟨true, some
          [⟨false, [⟨"ABCD", none⟩, ⟨"Societe Generale", none⟩, ⟨"12 500", none⟩,
                    ⟨"1 000", none⟩, ⟨"1 010", none⟩, ⟨"1 020,50", none⟩,
                    ⟨"0,50", some "0,50"⟩]⟩,
           ⟨false, [⟨"XYZ", none⟩, ⟨"Bad", none⟩, ⟨"1", none⟩, ⟨"2", none⟩]⟩],
          []⟩], []⟩)
        true ⟨[], []⟩).2.historique.length = 1) := by
  refine ⟨?_, ?_, ?_, ?_, ?_, ?_, ?_⟩
  · intro commitOK db; rfl
  · intro doc commitOK db h
    simp [BRVMScraper.scrape_and_save, h]
  · intro db a h
    simp [BRVMScraper.saveOne, h]
  · intro db a h
    simp [BRVMScraper.saveOne, h]
  · intro doc db h
    have hloop := saveLoop_foldl_spec (parse_actions doc) (⟨0, 0, 0⟩, db)
    constructor
    · simp only [BRVMScraper.scrape_and_save, h, Bool.false_eq_true, if_false,
        BRVMScraper.save_to_database, if_pos]
      exact hloop.1
    · intro stats hstats
      simp only [BRVMScraper.scrape_and_save, h, Bool.false_eq_true, if_false,
        BRVMScraper.save_to_database, if_pos, Except.ok.injEq] at hstats
      subst hstats
      exact ⟨hloop.2.1, hloop.2.2⟩
  · rfl
  · rfl

theorem C3_witness :
    BRVMScraper.scrape_and_save (some ⟨none, []⟩) true ⟨[], []⟩
      = (.ok ⟨0, 0, 1⟩, ⟨[], []⟩) :=
  C3_scrape_and_save_spec.2.1 ⟨none, []⟩ true ⟨[], []⟩ (by rfl)

/-- Claim C8, counterexample: a persistence (commit) failure during
`scrape_and_save` is not reported as a structured outcome — the scraper's
`save_to_database` rolls back and re-raises (`db.rollback(); raise`), so the
exception propagates out of the public operation to its immediate caller. -/
theorem C8_counterexample :
    (BRVMScraper.scrape_and_save
      (some ⟨none, [⟨false, none,
        [⟨false, [⟨"AB", none⟩, ⟨"N", none⟩, ⟨"1", none⟩, ⟨"-", none⟩,
                  ⟨"-", none⟩, ⟨"-", none⟩, ⟨"-", none⟩]⟩]⟩]⟩)
      false ⟨[], []⟩).1 = .error () := rfl

/-- Claim C8, amended: the extractor's persistence operations report failures
as structured outcomes (`False` / 0 deletions) with the store rolled back,
and the webhook dispatcher returns counts; the scraper, however, rolls the
store back on a commit failure and then re-raises, so the exception
propagates out of `scrape_and_save` to its immediate caller (the scheduler
task, which catches it at the task boundary). -/
theorem C8_amended_failure_outcomes :
    (∀ ind : Indicators, ∀ url : String, ∀ d : Int, ∀ db : List IndicateurMarche,
      PDFExtractor.save_to_database ind url d false db = (false, db)) ∧
    (∀ rd td : Int, ∀ db : List IndicateurMarche,
      PDFExtractor.cleanup_old_data rd td false db = (0, db)) ∧
    (∀ items : List ActionDict, ∀ db : ScraperDB,
      BRVMScraper.save_to_database items false db = (.error (), db)) ∧
    (∀ doc : HtmlDoc, ∀ db : ScraperDB, (parse_actions doc).isEmpty = false →
      BRVMScraper.scrape_and_save (some doc) false db = (.error (), db)) := by
  refine ⟨?_, ?_, ?_, ?_⟩
  · intro ind url d db
    simp [PDFExtractor.save_to_database]
  · intro rd td db
    simp [PDFExtractor.cleanup_old_data]
  · intro items db
    simp [BRVMScraper.save_to_database]
  · intro doc db h
    simp [BRVMScraper.scrape_and_save, h, BRVMScraper.save_to_database]

theorem C8_witness :
    BRVMScraper.scrape_and_save
      (some ⟨none, [⟨false, none,
        [⟨false, [⟨"AB", none⟩, ⟨"N", none⟩, ⟨"1", none⟩, ⟨"-", none⟩,
                  ⟨"-", none⟩, ⟨"-", none⟩, ⟨"-", none⟩]⟩]⟩]⟩)
      false ⟨[], []⟩ = (.error (), ⟨[], []⟩) :=
  C8_amended_failure_outcomes.2.2.2
    ⟨none, [⟨false, none,
      [⟨false, [⟨"AB", none⟩, ⟨"N", none⟩, ⟨"1", none⟩, ⟨"-", none⟩,
                ⟨"-", none⟩, ⟨"-", none⟩, ⟨"-", none⟩]⟩]⟩]⟩
    ⟨[], []⟩ (by rfl)

/-!
### PDF extraction cycle: claims C4 and C5
-/

/-- Claim C4: `process_daily_pdf` returns `False` without writing when no
local copy can be obtained (no cached file and failed download) or when
extraction yielded all four indicators absent; otherwise it persists, then
applies retention, returning the persist step's boolean result; retention
deletes exactly the rows dated strictly before `today - retention_days`. -/
theorem C4_process_daily_pdf_spec :
    (∀ extracted : Indicators, ∀ url : String, ∀ d : Int, ∀ sOK cOK : Bool,
      ∀ rd td : Int, ∀ db : List IndicateurMarche,
      PDFExtractor.process_daily_pdf false false extracted url d sOK cOK rd td db
        = (false, db)) ∧
    (∀ fe dl : Bool, ∀ extracted : Indicators, ∀ url : String, ∀ d : Int,
      ∀ sOK cOK : Bool, ∀ rd td : Int, ∀ db : List IndicateurMarche,
      extracted.allNone = true →
      PDFExtractor.process_daily_pdf fe dl extracted url d sOK cOK rd td db
        = (false, db)) ∧
    (∀ fe dl : Bool, ∀ extracted : Indicators, ∀ url : String, ∀ d : Int,
      ∀ sOK cOK : Bool, ∀ rd td : Int, ∀ db : List IndicateurMarche,
      (fe || dl) = true → extracted.allNone = false →
      (PDFExtractor.process_daily_pdf fe dl extracted url d sOK cOK rd td db).1 = sOK ∧
      (PDFExtractor.process_daily_pdf fe dl extracted url d sOK cOK rd td db).2
        = (PDFExtractor.cleanup_old_data rd td cOK
            (PDFExtractor.save_to_database extracted url d sOK db).2).2) ∧
    (∀ rd td : Int, ∀ db : List IndicateurMarche,
      (PDFExtractor.cleanup_old_data rd td true db).2
        = db.filter (fun r => !(r.date_rapport < td - rd : Bool)) ∧
      (PDFExtractor.cleanup_old_data rd td true db).1
        = (db.filter (fun r => (r.date_rapport < td - rd : Bool))).length ∧
      ∀ r : IndicateurMarche,
        r ∈ (PDFExtractor.cleanup_old_data rd td true db).2
          ↔ (r ∈ db ∧ td - rd ≤ r.date_rapport)) := by
  refine ⟨?_, ?_, ?_, ?_⟩
  · intro extracted url d sOK cOK rd td db
    simp [PDFExtractor.process_daily_pdf]
  · intro fe dl extracted url d sOK cOK rd td db h
    simp only [PDFExtractor.process_daily_pdf, h]
    split <;> simp
  · intro fe dl extracted url d sOK cOK rd td db hloc h
    have hcond : (!fe && !dl) = false := by
      cases fe <;> cases dl <;> simp_all
    constructor
    · simp only [PDFExtractor.process_daily_pdf, hcond, Bool.false_eq_true, if_false, h]
      simp only [PDFExtractor.save_to_database]
      cases sOK <;> simp
    · simp only [PDFExtractor.process_daily_pdf, hcond, Bool.false_eq_true, if_false, h]
  · intro rd td db
    refine ⟨rfl, rfl, ?_⟩
    intro r
    simp only [PDFExtractor.cleanup_old_data, if_pos, List.mem_filter,
      Bool.not_eq_true', decide_eq_false_iff_not, not_lt]

theorem C4_witness :
    (PDFExtractor.process_daily_pdf true false ⟨some 1, none, none, none⟩
        "u" 10 true true 60 100 []).1 = true ∧
    PDFExtractor.process_daily_pdf false false ⟨some 1, none, none, none⟩
        "u" 10 true true 60 100 [] = (false, []) := by
  constructor
  · exact (C4_process_daily_pdf_spec.2.2.1 true false ⟨some 1, none, none, none⟩
      "u" 10 true true 60 100 [] (by decide) (by decide)).1
  · exact C4_process_daily_pdf_spec.1 ⟨some 1, none, none, none⟩ "u" 10 true true 60 100 []

theorem updateFirst_filter_of_preserve {α : Type} (p : α → Bool) (f : α → α)
    (hf : ∀ x, p x = true → p (f x) = true) :
    ∀ l : List α, (l.filter p).length ≤ 1 → l.any p = true →
      ∃ x, x ∈ l ∧ p x = true ∧ (updateFirst p f l).filter p = [f x] := by
  intro l
  induction l with
  | nil => intro _ h; simp at h
  | cons y ys ih =>
    intro hlen hany
    by_cases hy : p y = true
    · have hys : ys.filter p = [] := by
        simp only [List.filter_cons, hy, if_pos, List.length_cons] at hlen
        exact List.length_eq_zero.mp (by omega)
      refine ⟨y, List.mem_cons_self _ _, hy, ?_⟩
      simp [updateFirst, hy, List.filter_cons, hf y hy, hys]
    · have hyf : p y = false := Bool.eq_false_iff.mpr hy
      have hany' : ys.any p = true := by
        simp only [List.any_cons, hyf, Bool.false_or] at hany
        exact hany
      have hlen' : (ys.filter p).length ≤ 1 := by
        simpa only [List.filter_cons, hyf, Bool.false_eq_true, if_false] using hlen
      obtain ⟨x, hx, hpx, hres⟩ := ih hlen' hany'
      refine ⟨x, List.mem_cons_of_mem _ hx, hpx, ?_⟩
      simp [updateFirst, hyf, List.filter_cons, hres]

theorem save_filter_of_le_one (i : Indicators) (u : String) (d : Int)
    (db : List IndicateurMarche)
    (h : (db.filter (fun r => r.date_rapport == d)).length ≤ 1) :
    ((PDFExtractor.save_to_database i u d true db).2).filter
      (fun r => r.date_rapport == d) = [PDFExtractor.mkReport d i u] := by
  by_cases hany : db.any (fun r => r.date_rapport == d) = true
  · obtain ⟨x, hx, hpx, hres⟩ := updateFirst_filter_of_preserve
      (fun r => r.date_rapport == d)
      (fun r => { r with
        taux_rendement_moyen := i.taux_rendement_moyen
        per_moyen := i.per_moyen
        taux_rentabilite_moyen := i.taux_rentabilite_moyen
        prime_risque_marche := i.prime_risque_marche
        source_pdf := u })
      (fun x hx => hx) db h hany
    have hd : x.date_rapport = d := by simpa using hpx
    simp only [PDFExtractor.save_to_database, hany, if_pos]
    rw [hres]
    simp [PDFExtractor.mkReport, hd]
  · have hanyf : db.any (fun r => r.date_rapport == d) = false :=
      Bool.eq_false_iff.mpr hany
    have hnil : db.filter (fun r => r.date_rapport == d) = [] := by
      rw [List.filter_eq_nil_iff]
      intro a ha
      have := List.any_eq_false.mp hanyf a ha
      simpa using this
    simp [PDFExtractor.save_to_database, hanyf, List.filter_append, hnil,
      List.filter_cons, PDFExtractor.mkReport]

/-- Claim C5: indicator persistence is an idempotent upsert keyed by report
date: starting from a store with at most one row for the resolved date (the
column is unique), running the persist step twice for that date leaves
exactly one row for the date, carrying the second run's indicator values and
source URL — the second run overwrites instead of duplicating. -/
theorem C5_idempotent_upsert (i1 i2 : Indicators) (u1 u2 : String) (d : Int)
    (db : List IndicateurMarche)
    (h : (db.filter (fun r => r.date_rapport == d)).length ≤ 1) :
    ((PDFExtractor.save_to_database i2 u2 d true
        (PDFExtractor.save_to_database i1 u1 d true db).2).2).filter
      (fun r => r.date_rapport == d) = [PDFExtractor.mkReport d i2 u2] := by
  have h1 := save_filter_of_le_one i1 u1 d db h
  have hle : (((PDFExtractor.save_to_database i1 u1 d true db).2).filter
      (fun r => r.date_rapport == d)).length ≤ 1 := by
    rw [h1]; simp
  exact save_filter_of_le_one i2 u2 d _ hle

theorem C5_witness :
    ((PDFExtractor.save_to_database ⟨none, none, none, none⟩ "b" 5 true
        (PDFExtractor.save_to_database ⟨none, none, none, none⟩ "a" 5 true []).2).2).filter
      (fun r => r.date_rapport == 5)
      = [PDFExtractor.mkReport 5 ⟨none, none, none, none⟩ "b"] :=
  C5_idempotent_upsert ⟨none, none, none, none⟩ ⟨none, none, none, none⟩
    "a" "b" 5 [] (by decide)

theorem C1_witness : get_pdf_date ⟨8, 63000⟩ = 8 :=
  (C1_get_pdf_date_spec ⟨8, 63000⟩).2.2.2.2 (by decide) (by decide)

theorem C6_witness : ',' ∉ (cleanFloat "a,b").toList :=
  C6_numeric_normalizer.2.2.2.2.2 "a,b"

theorem C10_witness : send_webhook (fun _ => PostResult.success) 0 = (false, 0) :=
  C10_send_webhook_zero_retries (fun _ => PostResult.success)
